import Mathlib

/-!
Verification of the `my_editor` terminal text editor (src/src/editor.rs).

The editor's state (`Editor`), cursor-clamping algorithm
(`get_cursor_valid_position`), movement handlers, editing handlers and the
save-mode state machine are embedded as executable Lean definitions, and the
specification's testable properties are settled against them.

Modelling conventions:
* Rust `u16`/`usize` values are modelled as `Nat`.  Every subtraction in the
  source is guarded so that it cannot underflow in the reachable cases; the
  corresponding Lean `Nat` subtraction therefore agrees with the machine
  subtraction wherever theorems below rely on it (points where an unguarded
  `u16` subtraction in the source could wrap are called out in comments).
* Terminal effects are part of the model state: the terminal cursor read by
  `cursor::position()` is the `cursor` field (column, row), `MoveTo c r`
  becomes `cursor := (c, r)`, and `SavePosition` / `RestorePosition` use the
  `saved_cursor` field.  Pure rendering calls (`display_current_buffer`,
  `clear_and_print`, `clear_all_display`, `print_save_validation`,
  `print_filename_input`) draw to the screen only and do not change any model
  state.
* File writes are recorded in the `writes` effect log as
  (file name, written content) pairs.
* `buffer.rs` and `display.rs` are not part of the sources; the `Buffer`
  operations used by `editor.rs` are modelled from the specification (each
  such definition carries a doc comment starting `Modelled from the spec:`),
  and the per-visible-row occupied-positions sequence produced by
  `get_last_visible_char_position` is passed to the cursor functions as an
  explicit parameter `occ`.
-/

namespace MyEditor

/-- Cursor movement directions (enum `CursorMovement` in editor.rs). -/
inductive CursorMovement where
  | Up
  | Down
  | Left
  | Right
deriving DecidableEq, Repr

/-- Editor modes (enum `EditorMode` in editor.rs). -/
inductive EditorMode where
  | Normal
  | SaveMode
deriving DecidableEq, Repr

/-- Buffer kinds (enum `BufferType` in buffer.rs, used by editor.rs). -/
inductive BufferType where
  | NORMAL
  | OPTION
deriving DecidableEq, Repr

/-- Modelled from the spec: a `Mark` is a named position in a buffer; it is
stored as a single linear offset into the content (`Mark::new(name, 0)`). -/
structure Mark where
  name : String
  position : Nat
deriving DecidableEq, Repr

/-- Modelled from the spec: a text buffer with its content (a character
sequence with embedded line breaks), the point, auxiliary marks, an optional
file name and a buffer type.  `buffer.rs` is not among the sources. -/
structure Buffer where
  content : List Char
  point : Mark
  mark_list : List Mark
  file_name : Option (List Char)
  buffer_type : BufferType
deriving DecidableEq, Repr

/-- The `Display` fields used by editor.rs: terminal dimensions and the
vertical scroll offset `first_line_visible`. -/
structure Display where
  width : Nat
  height : Nat
  first_line_visible : Nat
deriving DecidableEq, Repr

/-- The editor state (struct `Editor` in editor.rs), extended with the
terminal-effect fields described in the module docstring. -/
structure Editor where
  display : Display
  exit : Bool
  current_buffer : Nat
  previous_buffer : Nat
  buffer_list : List Buffer
  mode : EditorMode
  /-- The terminal cursor as (column, row); read by `cursor::position()`,
  written by `MoveTo`. -/
  cursor : Nat × Nat
  /-- The slot used by `SavePosition` / `RestorePosition`. -/
  saved_cursor : Nat × Nat
  /-- Effect log of file writes performed, as (file name, content) pairs. -/
  writes : List (List Char × List Char)
deriving DecidableEq, Repr

/-- Number of lines in a character sequence: content with zero characters
counts as one empty line, and every line-break character starts one more. -/
def countLines : List Char → Nat
  | [] => 1
  | c :: rest => (if c = '\n' then 1 else 0) + countLines rest

/-- Length of line `row` of a character sequence (0 for rows past the end). -/
def lineLen : List Char → Nat → Nat
  | [], _ => 0
  | c :: rest, 0 => if c = '\n' then 0 else 1 + lineLen rest 0
  | c :: rest, r + 1 => if c = '\n' then lineLen rest r else lineLen rest (r + 1)

/-- Linear index into a character sequence of the (row, column) position:
the start offset of line `row` plus `col`. -/
def posToIdx : List Char → Nat → Nat → Nat
  | _, 0, col => col
  | [], _ + 1, col => col
  | c :: rest, r + 1, col =>
      1 + (if c = '\n' then posToIdx rest r col else posToIdx rest (r + 1) col)

/-- Modelled from the spec: `get_point_line_and_column` returns the point's
current row and column; here computed from the linear offset by scanning the
prefix before the point. -/
def pointLineCol (content : List Char) (p : Nat) : Nat × Nat :=
  (content.take p).foldl
    (fun rc c => if c = '\n' then (rc.1 + 1, 0) else (rc.1, rc.2 + 1)) (0, 0)

/-- Modelled from the spec: `get_last_column row` is the last valid column of
a single row — the position one past the last character (the append
position), i.e. the row's length.  The backspace handler moves the point
there so that the character at the point's linear index is the line break
terminating that row. -/
def get_last_column (content : List Char) (row : Nat) : Nat :=
  lineLen content row

/-- `get_cursor_valid_position` (editor.rs lines 229-282): resolves a
candidate buffer-space (row, col) and a movement direction against the
per-visible-row occupied-positions sequence `occ` (the result of
`get_last_visible_char_position`), returning a valid position or `none`.
The direct index `occupied_positions[row - 1]` in the `Left` arm is modelled
with `getD _ none`; it is in bounds there because `row > 0` and
`row < occ.length`. -/
def get_cursor_valid_position (occ : List (Option Nat)) (row col : Nat)
    (movement : CursorMovement) : Option (Nat × Nat) :=
  if occ.isEmpty then
    some (row, col)
  else if occ.length ≤ row then
    none
  else
    match occ[row]? with
    | some (some occupied) =>
        if col ≤ occupied + 1 then
          some (row, col)
        else
          match movement with
          | .Up => some (row, occupied)
          | .Down => some (row, occupied)
          | .Left =>
              if 0 < row then
                match occ.getD (row - 1) none with
                | some last_position => some (row - 1, last_position)
                | none => some (row - 1, 0)
              else
                none
          | .Right =>
              if row + 1 < occ.length then some (row + 1, 0) else none
    | some none =>
        if row + 1 < occ.length ∧ movement = .Right then
          some (row + 1, 0)
        else
          some (row, 0)
    | none => none

/-- `is_cursor_position_valid` (editor.rs lines 284-300): the companion
boolean validity predicate without clamping. -/
def is_cursor_position_valid (occ : List (Option Nat)) (row col : Nat) : Bool :=
  if occ.isEmpty then
    true
  else if occ.length ≤ row then
    false
  else
    match occ[row]? with
    | some (some occupied) => col ≤ occupied + 1
    | some none => col = 0
    | none => false

/-- A placeholder buffer used only as the default of `List.getD`; every
buffer-list index used by the handlers is in bounds in reachable states (the
Rust source indexes directly and would panic otherwise). -/
def defaultBuffer : Buffer :=
  { content := []
    point := { name := "Point", position := 0 }
    mark_list := []
    file_name := none
    buffer_type := BufferType.NORMAL }

/-- `init_option_buffer` (editor.rs lines 76-84): the reserved OPTION buffer
installed at index 0. -/
def init_option_buffer : Buffer :=
  { content := []
    point := { name := "Point", position := 0 }
    mark_list := []
    file_name := none
    buffer_type := BufferType.OPTION }

/-- The buffer `buffer_list[current_buffer]`. -/
def currentBuf (s : Editor) : Buffer :=
  s.buffer_list.getD s.current_buffer defaultBuffer

/-- The content of the current buffer. -/
def currentContent (s : Editor) : List Char :=
  (currentBuf s).content

/-- In-place mutation of `buffer_list[current_buffer]` (Rust indexes the
vector directly). -/
def updateCurrentBuf (s : Editor) (f : Buffer → Buffer) : Editor :=
  { s with buffer_list := s.buffer_list.set s.current_buffer (f (currentBuf s)) }

/-- Modelled from the spec: `Buffer::move_point_to(row, col)` unconditionally
relocates the point to the linear offset of (row, col); no validation. -/
def Buffer.move_point_to (b : Buffer) (row col : Nat) : Buffer :=
  { b with point := { b.point with position := posToIdx b.content row col } }

/-- Modelled from the spec: `Buffer::write_char(c)` inserts `c` at the
point's linear position; advancing the point is the caller's responsibility. -/
def Buffer.write_char (b : Buffer) (c : Char) : Buffer :=
  { b with content := b.content.insertIdx b.point.position c }

/-- Modelled from the spec: `Buffer::remove_char()` implements backspace
semantics.  Its callers first relocate the point one position to the left of
the character position being erased from under the original cursor, so the
character deleted — the one immediately before that original cursor — is the
character at the point's (new) linear index; deleting a line break merges the
two adjacent lines.  The point itself is not moved further. -/
def Buffer.remove_char (b : Buffer) : Buffer :=
  { b with content := b.content.eraseIdx b.point.position }

/-- Sets the scroll offset `display.first_line_visible`. -/
def setFlv (s : Editor) (v : Nat) : Editor :=
  { s with display := { s.display with first_line_visible := v } }

/-- `handle_cursor_right` (editor.rs lines 165-179).  The `u16` subtraction
`new_row - first_line_visible` cannot underflow: for a `Right` movement the
resolved row is the candidate row `row + first_line_visible` or its
successor. -/
def handle_cursor_right (occ : List (Option Nat)) (s : Editor) : Editor :=
  let (col, row) := s.cursor
  match get_cursor_valid_position occ (row + s.display.first_line_visible)
      (col + 1) .Right with
  | some (new_row, new_col) =>
      let s1 := updateCurrentBuf s (fun b => b.move_point_to new_row new_col)
      let s2 :=
        if s1.display.height ≤ new_row - s1.display.first_line_visible then
          setFlv s1 (s1.display.first_line_visible + 1)
        else s1
      -- display_current_buffer: rendering only
      { s2 with cursor := (new_col, new_row - s2.display.first_line_visible) }
  | none => s

/-- `handle_cursor_left` (editor.rs lines 181-193): guarded by `col >= 1`, so
the `u16` subtraction `col - 1` cannot underflow; the scroll offset is never
changed here. -/
def handle_cursor_left (occ : List (Option Nat)) (s : Editor) : Editor :=
  let (col, row) := s.cursor
  if 1 ≤ col then
    match get_cursor_valid_position occ (row + s.display.first_line_visible)
        (col - 1) .Left with
    | some (new_row, new_col) =>
        let s1 := updateCurrentBuf s (fun b => b.move_point_to new_row new_col)
        { s1 with cursor := (new_col, new_row - s1.display.first_line_visible) }
    | none => s
  else s

/-- `handle_cursor_down` (editor.rs lines 195-209).  For a `Down` movement
the resolved row equals the candidate row `row + first_line_visible + 1`, so
`new_row - first_line_visible` cannot underflow. -/
def handle_cursor_down (occ : List (Option Nat)) (s : Editor) : Editor :=
  let (col, row) := s.cursor
  match get_cursor_valid_position occ (row + s.display.first_line_visible + 1)
      col .Down with
  | some (new_row, new_col) =>
      let s1 := updateCurrentBuf s (fun b => b.move_point_to new_row new_col)
      let s2 :=
        if s1.display.height ≤ new_row - s1.display.first_line_visible then
          setFlv s1 (s1.display.first_line_visible + 1)
        else s1
      { s2 with cursor := (new_col, new_row - s2.display.first_line_visible) }
  | none => s

/-- `handle_cursor_up` (editor.rs lines 211-227): guarded by
`row >= 1 || first_line_visible != 0`, so `(first_line_visible + row) - 1`
cannot underflow; the offset is decremented when the resolved row is above
the visible window. -/
def handle_cursor_up (occ : List (Option Nat)) (s : Editor) : Editor :=
  let (col, row) := s.cursor
  if 1 ≤ row ∨ s.display.first_line_visible ≠ 0 then
    match get_cursor_valid_position occ (s.display.first_line_visible + row - 1)
        col .Up with
    | some (new_row, new_col) =>
        let s1 :=
          if new_row < s.display.first_line_visible then
            setFlv s (s.display.first_line_visible - 1)
          else s
        let s2 := updateCurrentBuf s1 (fun b => b.move_point_to new_row new_col)
        { s2 with cursor := (new_col, new_row - s2.display.first_line_visible) }
    | none => s
  else s

/-- `handle_cursor_movement` (editor.rs lines 146-163): dispatch on the
movement direction. -/
def handle_cursor_movement (occ : List (Option Nat)) (movement : CursorMovement)
    (s : Editor) : Editor :=
  match movement with
  | .Up => handle_cursor_up occ s
  | .Down => handle_cursor_down occ s
  | .Left => handle_cursor_left occ s
  | .Right => handle_cursor_right occ s

/-- `handle_char_input` (editor.rs lines 302-309): insert `c` at the point,
re-read the terminal cursor, redraw, advance the point to the cursor's
buffer position plus one column, and move the terminal cursor right. -/
def handle_char_input (c : Char) (s : Editor) : Editor :=
  let s1 := updateCurrentBuf s (fun b => b.write_char c)
  let (col, row) := s1.cursor
  -- display_current_buffer: rendering only
  let s2 := updateCurrentBuf s1 (fun b =>
    b.move_point_to (row + s1.display.first_line_visible) (col + 1))
  { s2 with cursor := (col + 1, row) }

/-- `handle_save_file` (editor.rs lines 391-413): no-op on buffer 0; with a
file name, record the write, return to Normal mode and restore the cursor;
without one, remember the buffer, switch to the reserved buffer 0, enter
SaveMode and park the cursor on the prompt line. -/
def handle_save_file (s : Editor) : Editor :=
  -- clear_all_display: rendering only
  if s.current_buffer ≠ 0 then
    match (currentBuf s).file_name with
    | some filename =>
        let s1 := { s with
          writes := s.writes ++ [(filename, (currentBuf s).content)]
          mode := EditorMode.Normal }
        -- display_current_buffer: rendering only; RestorePosition
        { s1 with cursor := s1.saved_cursor }
    | none =>
        let s1 := { s with
          previous_buffer := s.current_buffer
          current_buffer := 0
          mode := EditorMode.SaveMode }
        -- print_filename_input: rendering only; MoveTo(0, 0)
        { s1 with cursor := (0, 0) }
  else s

/-- `handle_enter_input` (editor.rs lines 311-328): in Normal mode insert a
line break and move to the start of the next row (scrolling if the cursor
was on the last screen row); in SaveMode commit the reserved buffer's
content as the remembered buffer's file name, restore the buffer indices and
re-invoke the save procedure. -/
def handle_enter_input (s : Editor) : Editor :=
  match s.mode with
  | .Normal =>
      let row := s.cursor.2
      let s1 := updateCurrentBuf s (fun b => b.write_char '\n')
      let s2 :=
        if row + 1 = s1.display.height then
          setFlv s1 (s1.display.first_line_visible + 1)
        else s1
      let s3 := updateCurrentBuf s2 (fun b =>
        b.move_point_to (s2.display.first_line_visible + row + 1) 0)
      -- display_current_buffer: rendering only
      { s3 with cursor := (0, row + 1) }
  | .SaveMode =>
      let name := (s.buffer_list.getD 0 defaultBuffer).content
      let prev := s.buffer_list.getD s.previous_buffer defaultBuffer
      let s1 := { s with
        buffer_list := s.buffer_list.set s.previous_buffer
          { prev with file_name := some name } }
      let s2 := { s1 with
        current_buffer := s1.previous_buffer
        previous_buffer := 0 }
      handle_save_file s2

/-- `handle_backspace_input` (editor.rs lines 330-347).  At column 0 of a
screen row below the top one, the point is moved to the previous screen
row's last column and the character there (the line break, when the scroll
offset is 0) is removed; otherwise the character left of the cursor is
removed.  `MoveTo(new_col - 1, new_row)` is a `u16` subtraction that
underflows when the previous row is empty; theorems about this branch assume
a non-empty previous row. -/
def handle_backspace_input (s : Editor) : Editor :=
  let (col, row) := s.cursor
  let first_visible_row := s.display.first_line_visible
  if 0 < row ∧ col = 0 then
    let new_row := row - 1
    let new_col := get_last_column (currentBuf s).content new_row
    let s1 := updateCurrentBuf s (fun b =>
      b.move_point_to (new_row + first_visible_row) new_col)
    let s2 := updateCurrentBuf s1 (fun b => b.remove_char)
    -- display_current_buffer: rendering only
    { s2 with cursor := (new_col - 1, new_row) }
  else if 0 < col then
    let s1 := updateCurrentBuf s (fun b =>
      b.move_point_to (row + first_visible_row) (col - 1))
    let s2 := updateCurrentBuf s1 (fun b => b.remove_char)
    { s2 with cursor := (col - 1, row) }
  else s

/-- The tab width (`TAB_SIZE` in editor.rs). -/
def TAB_SIZE : Nat := 4

/-- `handle_tab_input` (editor.rs lines 349-358): insert `TAB_SIZE` spaces
at the point (the point does not advance between the insertions), then
advance the point and cursor by `TAB_SIZE` columns. -/
def handle_tab_input (s : Editor) : Editor :=
  let (col, row) := s.cursor
  let s1 := updateCurrentBuf s (fun b =>
    (List.replicate TAB_SIZE ' ').foldl (fun acc ch => acc.write_char ch) b)
  -- display_current_buffer: rendering only
  let s2 := updateCurrentBuf s1 (fun b =>
    b.move_point_to (row + s1.display.first_line_visible) (col + TAB_SIZE))
  { s2 with cursor := (col + TAB_SIZE, row) }

/-- `handle_resizing` (editor.rs lines 136-144): update the dimensions,
redraw, and re-anchor the terminal cursor at the point's row and column. -/
def handle_resizing (width height : Nat) (s : Editor) : Editor :=
  let s1 := { s with display := { s.display with height := height, width := width } }
  let rc := pointLineCol (currentBuf s1).content (currentBuf s1).point.position
  -- clear_and_print: rendering only
  { s1 with cursor := (rc.2, rc.1) }

/-- `handle_cancel_save` (editor.rs lines 415-418): redraw only. -/
def handle_cancel_save (s : Editor) : Editor :=
  s

/-- The key codes distinguished by `handle_key_events` (crossterm
`KeyCode`); `other` stands for every code the editor ignores. -/
inductive KeyCode where
  | Char (c : Char)
  | Right
  | Left
  | Up
  | Down
  | Backspace
  | Enter
  | Tab
  | other
deriving DecidableEq, Repr

/-- The key-modifier flags tested by `handle_key_events` (crossterm
`KeyModifiers`). -/
structure KeyModifiers where
  control : Bool
  shift : Bool
  alt : Bool
deriving DecidableEq, Repr

/-- `KeyModifiers::is_empty()`. -/
def KeyModifiers.flagsEmpty (m : KeyModifiers) : Bool :=
  !m.control && !m.shift && !m.alt

/-- The modifier value `KeyModifiers::SHIFT`. -/
def shiftOnly : KeyModifiers := ⟨false, true, false⟩

/-- No modifiers held. -/
def noModifiers : KeyModifiers := ⟨false, false, false⟩

/-- The modifier value `KeyModifiers::CONTROL`. -/
def controlOnly : KeyModifiers := ⟨true, false, false⟩

/-- The input events distinguished by the event loop; `other` stands for
every event the editor ignores. -/
inductive Event where
  | Key (code : KeyCode) (modifiers : KeyModifiers)
  | Resize (width height : Nat)
  | other
deriving DecidableEq, Repr

/-- The handler selected by one iteration of `handle_key_events`; each
constructor corresponds to one match arm of editor.rs lines 102-127. -/
inductive HandlerTag where
  | SetExit
  | SaveWorkflow
  | CharInput (c : Char)
  | MoveRight
  | MoveLeft
  | MoveUp
  | MoveDown
  | BackspaceInput
  | EnterInput
  | TabInput
  | Resizing (width height : Nat)
  | Ignore
deriving DecidableEq, Repr

/-- The dispatch table of `handle_key_events` (editor.rs lines 98-134): which
handler a decoded event is routed to, given the current mode.  The guard
`modifiers.contains(CONTROL)` is modelled as the control flag being set, and
the match arms are tried in source order. -/
def dispatch (e : Event) (mode : EditorMode) : HandlerTag :=
  match e with
  | .Resize w h => .Resizing w h
  | .Key code mods =>
      if code = .Char 'q' ∧ mods.control then
        .SetExit
      else if code = .Char 'x' ∧ mods.control ∧ mode = .Normal then
        .SaveWorkflow
      else
        match code with
        | .Char c =>
            if mods.flagsEmpty ∨ mods = shiftOnly then .CharInput c else .Ignore
        | .Right => .MoveRight
        | .Left => .MoveLeft
        | .Up => .MoveUp
        | .Down => .MoveDown
        | .Backspace => .BackspaceInput
        | .Enter => .EnterInput
        | .Tab => .TabInput
        | .other => .Ignore
  | .other => .Ignore

/-- One read of the blocking yes/no prompt loop in `handle_save_mode_input`
(editor.rs lines 375-386): `some true` on Y/y (confirm), `some false` on N/n
(cancel), `none` on every other event (the loop continues). -/
def save_prompt_step (e : Event) : Option Bool :=
  match e with
  | .Key code _ =>
      if code = .Char 'Y' ∨ code = .Char 'y' then some true
      else if code = .Char 'N' ∨ code = .Char 'n' then some false
      else none
  | _ => none

/-- The blocking prompt loop of `handle_save_mode_input`, run over the queue
of pending input events; `none` models the loop still blocked waiting for a
recognised key. -/
def save_mode_loop (s : Editor) : List Event → Option Editor
  | [] => none
  | e :: rest =>
      match save_prompt_step e with
      | some true => some (handle_save_file s)
      | some false =>
          -- RestorePosition after handle_cancel_save
          some { (handle_cancel_save s) with
                   cursor := (handle_cancel_save s).saved_cursor }
      | none => save_mode_loop s rest

/-- `handle_save_mode_input` (editor.rs lines 371-388): save the cursor
position, render the yes/no prompt, then block in the prompt loop. -/
def handle_save_mode_input (events : List Event) (s : Editor) : Option Editor :=
  let s1 := { s with saved_cursor := s.cursor }
  -- print_save_validation: rendering only
  save_mode_loop s1 events

/-- C6: if the per-visible-row occupied-positions sequence is empty,
`get_cursor_valid_position` returns the requested (row, col) unchanged, for
every row, column and movement direction. -/
theorem empty_sequence_passthrough (row col : Nat) (movement : CursorMovement) :
    get_cursor_valid_position [] row col movement = some (row, col) := by
  rfl

/-- C1: whenever `get_cursor_valid_position` is called on a non-empty
occupied-positions sequence and resolves to `some (row', col')`, and the
sequence entry at `row'` is an occupied column `k`, then `col' ≤ k + 1`. -/
theorem clamp_invariant (occ : List (Option Nat)) (row col : Nat)
    (movement : CursorMovement) (row' col' k : Nat)
    (hne : occ ≠ [])
    (hres : get_cursor_valid_position occ row col movement = some (row', col'))
    (hk : occ[row']? = some (some k)) :
    col' ≤ k + 1 := by
  unfold get_cursor_valid_position at hres
  repeat' split at hres
  all_goals simp_all [List.getD_eq_getElem?_getD]
  all_goals omega

/-- Witness for `clamp_invariant` at a concrete input: the sequence
`[some 1]` with a `Down` request at (0, 5) resolves to (0, 1) and indeed
`1 ≤ 1 + 1`. -/
theorem clamp_invariant_witness :
    ([some 1] : List (Option Nat)) ≠ [] ∧
    get_cursor_valid_position [some 1] 0 5 .Down = some (0, 1) ∧
    ([some 1] : List (Option Nat))[0]? = some (some 1) ∧
    1 ≤ 1 + 1 :=
  ⟨by decide, by decide, by decide,
    clamp_invariant [some 1] 0 5 .Down 0 1 1 (by decide) (by decide) (by decide)⟩

/-- C2 counterexample: per the claim, a `Left` movement from row 0 should be
rejected (`none`); but with sequence `[some 1]` and a within-bounds column,
`get_cursor_valid_position 0 0 Left` accepts the position unchanged. -/
theorem boundary_rejection_counterexample :
    get_cursor_valid_position [some 1] 0 0 .Left = some (0, 0) := by
  decide

/-- C2 amended: `get_cursor_valid_position` returns `none` exactly when the
sequence is non-empty and either the requested row is beyond its end, or the
entry at the requested row is an occupied column `k`, the requested column
overflows it (`col > k + 1`), and the movement is `Left` from row 0 or
`Right` from the last row. -/
theorem boundary_rejection_amended (occ : List (Option Nat)) (row col : Nat)
    (movement : CursorMovement) :
    get_cursor_valid_position occ row col movement = none ↔
      (occ ≠ [] ∧
        (occ.length ≤ row ∨
          ∃ k, occ[row]? = some (some k) ∧ k + 1 < col ∧
            ((movement = .Left ∧ row = 0) ∨
             (movement = .Right ∧ row + 1 = occ.length)))) := by
  unfold get_cursor_valid_position
  constructor
  · intro hres
    repeat' split at hres
    all_goals simp_all [List.getD_eq_getElem?_getD, List.isEmpty_iff]
    all_goals omega
  · rintro ⟨hne, hcond⟩
    repeat' split
    all_goals simp_all [List.isEmpty_iff, List.getD_eq_getElem?_getD]
    all_goals omega

/-- Updating the current buffer leaves the display untouched. -/
theorem display_updateCurrentBuf (s : Editor) (f : Buffer → Buffer) :
    (updateCurrentBuf s f).display = s.display :=
  rfl

/-- Updating the current buffer leaves the cursor untouched. -/
theorem cursor_updateCurrentBuf (s : Editor) (f : Buffer → Buffer) :
    (updateCurrentBuf s f).cursor = s.cursor :=
  rfl

/-- Updating the current buffer leaves the current-buffer index untouched. -/
theorem current_buffer_updateCurrentBuf (s : Editor) (f : Buffer → Buffer) :
    (updateCurrentBuf s f).current_buffer = s.current_buffer :=
  rfl

/-- An in-bounds update of the current buffer is observed by `currentBuf`. -/
theorem currentBuf_updateCurrentBuf (s : Editor) (f : Buffer → Buffer)
    (h : s.current_buffer < s.buffer_list.length) :
    currentBuf (updateCurrentBuf s f) = f (currentBuf s) := by
  simp [currentBuf, updateCurrentBuf, List.getD_eq_getElem?_getD,
    List.getElem?_set_eq_of_lt _ h]

/-- On row 0 the linear index is the column itself. -/
theorem posToIdx_zero (content : List Char) (col : Nat) :
    posToIdx content 0 col = col := by
  cases content <;> rfl

/-- The column offset of `posToIdx`: the index of (row, col) is the index of
(row, 0) plus `col`. -/
theorem posToIdx_col (content : List Char) (row col : Nat) :
    posToIdx content row col = posToIdx content row 0 + col := by
  induction content generalizing row with
  | nil => cases row <;> simp [posToIdx]
  | cons ch rest ih =>
      cases row with
      | zero => simp [posToIdx]
      | succ r =>
          by_cases hch : ch = '\n' <;>
            simp [posToIdx, hch, ih] <;> omega

/-- Inserting a character at the linear index of a valid row leaves that
(row, col)'s linear index unchanged: all characters at smaller indices are
untouched by the insertion. -/
theorem posToIdx_insertIdx (content : List Char) (row col : Nat) (c : Char)
    (h : row < countLines content) :
    posToIdx (content.insertIdx (posToIdx content row col) c) row col
      = posToIdx content row col := by
  induction content generalizing row with
  | nil =>
      cases row with
      | zero => simp [posToIdx_zero]
      | succ r => simp [countLines] at h
  | cons ch rest ih =>
      cases row with
      | zero => simp [posToIdx_zero]
      | succ r =>
          by_cases hch : ch = '\n'
          · have h' : r < countLines rest := by
              simp [countLines, hch] at h; omega
            simp only [posToIdx, hch, if_pos rfl, Nat.add_comm 1,
              List.insertIdx_succ_cons]
            simp [posToIdx, hch, ih r h']
          · have h' : r + 1 < countLines rest := by
              simpa [countLines, hch] using h
            simp only [posToIdx, hch, if_neg hch, Nat.add_comm 1,
              List.insertIdx_succ_cons]
            simp [posToIdx, hch, ih (r + 1) h']

/-- The character at the linear index of a row's last valid column (one past
its last character) is the line break terminating that row, whenever the row
is not the last one. -/
theorem newline_at_line_end (content : List Char) (r : Nat)
    (h : r + 1 < countLines content) :
    content[posToIdx content r (lineLen content r)]? = some '\n' := by
  induction content generalizing r with
  | nil => simp [countLines] at h
  | cons ch rest ih =>
      cases r with
      | zero =>
          by_cases hch : ch = '\n'
          · subst hch
            simp [posToIdx, lineLen]
          · have h' : 0 + 1 < countLines rest := by
              simpa [countLines, hch] using h
            have := ih 0 h'
            rw [posToIdx_zero] at this ⊢
            simp only [lineLen, if_neg hch]
            simpa [Nat.add_comm 1] using this
      | succ r' =>
          by_cases hch : ch = '\n'
          · have h' : r' + 1 < countLines rest := by
              simp [countLines, hch] at h; omega
            have := ih r' h'
            simp only [posToIdx, lineLen, hch, if_pos rfl]
            simpa [Nat.add_comm 1] using this
          · have h' : r' + 1 + 1 < countLines rest := by
              simpa [countLines, hch] using h
            have := ih (r' + 1) h'
            simp only [posToIdx, lineLen, hch, if_neg hch]
            simpa [Nat.add_comm 1] using this

/-- The buffer content of spec Scenarios A and B. -/
def scenarioContent : List Char := "ab\ncdef".toList

/-- The visible-row occupied-columns sequence of `scenarioContent`:
last occupied column 1 on row 0 ("ab") and 3 on row 1 ("cdef"). -/
def scenarioOcc : List (Option Nat) := [some 1, some 3]

/-- An editor over `scenarioContent` with an unscrolled viewport, the
terminal cursor at screen (row 1, column 0) and the point at buffer
position (1, 0). -/
def scenarioState : Editor :=
  { display := { width := 80, height := 24, first_line_visible := 0 }
    exit := false
    current_buffer := 1
    previous_buffer := 0
    buffer_list :=
      [init_option_buffer,
       { content := scenarioContent
         point := { name := "Point", position := posToIdx scenarioContent 1 0 }
         mark_list := []
         file_name := none
         buffer_type := BufferType.NORMAL }]
    mode := EditorMode.Normal
    cursor := (0, 1)
    saved_cursor := (0, 0)
    writes := [] }

/-- C3 counterexample: with occupied columns `[some 1, some 3]` and the
point at buffer (1, 0) — terminal cursor (column 0, row 1) — a `Left`
movement is a no-op: `handle_cursor_left` is guarded by `col >= 1` and never
calls the resolver, so nothing moves to (0, 1) as the claim demands. -/
theorem left_wrap_counterexample :
    scenarioState.cursor = (0, 1) ∧
    (currentBuf scenarioState).point.position = posToIdx scenarioContent 1 0 ∧
    handle_cursor_left scenarioOcc scenarioState = scenarioState :=
  ⟨rfl, rfl, rfl⟩

/-- C3 amended: on `[some 1, some 3]`, a Left movement from (1, 0) is a
no-op (the handler requires a cursor column of at least 1); the wrap to the
previous row's last occupied column happens only when the requested column
overflows the target row (`col > k + 1`), as in `(1, 6) ↦ (0, 1)`; the wrap
lands at column 0 when the previous row is empty; and an overflowing Left on
row 0 is rejected. -/
theorem left_wrap_amended :
    handle_cursor_left scenarioOcc scenarioState = scenarioState ∧
    get_cursor_valid_position scenarioOcc 1 6 .Left = some (0, 1) ∧
    get_cursor_valid_position [none, some 3] 1 6 .Left = some (0, 0) ∧
    get_cursor_valid_position scenarioOcc 0 6 .Left = none :=
  ⟨rfl, rfl, rfl, rfl⟩

/-- An editor in SaveMode: the save workflow has switched to the reserved
buffer 0 (still empty) to prompt for a file name, remembering buffer 1. -/
def saveModeState : Editor :=
  { display := { width := 80, height := 24, first_line_visible := 0 }
    exit := false
    current_buffer := 0
    previous_buffer := 1
    buffer_list :=
      [init_option_buffer,
       { content := scenarioContent
         point := { name := "Point", position := 0 }
         mark_list := []
         file_name := none
         buffer_type := BufferType.NORMAL }]
    mode := EditorMode.SaveMode
    cursor := (0, 0)
    saved_cursor := (2, 0)
    writes := [] }

/-- C4 counterexample: in SaveMode, a plain character key is still routed to
`handle_char_input` (the dispatch arm has no mode guard), and that handler
mutates editor state — here it inserts 'a' into the reserved buffer 0. -/
theorem mode_exclusivity_counterexample :
    saveModeState.mode = EditorMode.SaveMode ∧
    dispatch (.Key (.Char 'a') noModifiers) saveModeState.mode
      = .CharInput 'a' ∧
    (handle_char_input 'a' saveModeState).buffer_list
      ≠ saveModeState.buffer_list := by
  refine ⟨rfl, by decide, ?_⟩
  decide

/-- C4 amended: while `mode == SaveMode` only the Ctrl+X save shortcut is
disabled; plain or shifted character keys are still routed to the
character-input handler and arrow keys to the movement handlers in every
mode (character input is how the file name is typed into buffer 0), and the
blocking yes/no prompt loop exits exactly on a key event whose code is
Y, y, N or n, ignoring every other event. -/
theorem mode_exclusivity_amended :
    (∀ (c : Char) (mode : EditorMode),
        dispatch (.Key (.Char c) noModifiers) mode = .CharInput c ∧
        dispatch (.Key (.Char c) shiftOnly) mode = .CharInput c) ∧
    (∀ (mods : KeyModifiers) (mode : EditorMode),
        dispatch (.Key .Right mods) mode = .MoveRight ∧
        dispatch (.Key .Left mods) mode = .MoveLeft ∧
        dispatch (.Key .Up mods) mode = .MoveUp ∧
        dispatch (.Key .Down mods) mode = .MoveDown) ∧
    (∀ (mods : KeyModifiers) (mode : EditorMode),
        dispatch (.Key (.Char 'x') mods) mode = .SaveWorkflow ↔
          mods.control = true ∧ mode = .Normal) ∧
    (∀ e : Event, (save_prompt_step e).isSome = true ↔
        ∃ c mods, e = .Key (.Char c) mods ∧
          (c = 'Y' ∨ c = 'y' ∨ c = 'N' ∨ c = 'n')) := by
  refine ⟨?_, ?_, ?_, ?_⟩
  · intro c mode
    constructor <;>
      simp [dispatch, noModifiers, shiftOnly, KeyModifiers.flagsEmpty]
  · intro mods mode
    refine ⟨?_, ?_, ?_, ?_⟩ <;> simp [dispatch]
  · intro mods mode
    cases mode <;> cases hctl : mods.control <;>
      simp [dispatch, hctl] <;> split <;>
        simp_all [KeyModifiers.flagsEmpty, shiftOnly]
  · intro e
    cases e with
    | Key code mods =>
        cases code <;> simp [save_prompt_step] <;> split <;> simp_all <;> tauto
    | Resize w h => simp [save_prompt_step]
    | other => simp [save_prompt_step]

/-- Witness for `mode_exclusivity_amended` at concrete inputs: the prompt
step recognises a shifted Y and the dispatch routes 'a' in SaveMode. -/
theorem mode_exclusivity_amended_witness :
    dispatch (.Key (.Char 'a') noModifiers) .SaveMode = .CharInput 'a' ∧
    (save_prompt_step (.Key (.Char 'Y') shiftOnly)).isSome = true :=
  ⟨(mode_exclusivity_amended.1 'a' .SaveMode).1,
   (mode_exclusivity_amended.2.2.2 (.Key (.Char 'Y') shiftOnly)).mpr
     ⟨'Y', shiftOnly, rfl, Or.inl rfl⟩⟩

/-- C9: one invocation of any cursor-movement handler changes the
viewport's `first_line_visible` by at most 1 in either direction: it is
incremented by 1, decremented by 1, or left unchanged, and never jumps. -/
theorem scroll_monotonic (occ : List (Option Nat)) (movement : CursorMovement)
    (s : Editor) :
    (handle_cursor_movement occ movement s).display.first_line_visible
        ≤ s.display.first_line_visible + 1 ∧
    s.display.first_line_visible
        ≤ (handle_cursor_movement occ movement s).display.first_line_visible + 1 := by
  cases movement <;>
    simp only [handle_cursor_movement, handle_cursor_up, handle_cursor_down,
      handle_cursor_left, handle_cursor_right] <;>
    repeat' split
  all_goals simp_all [setFlv, updateCurrentBuf]
  all_goals omega

/-- C10: `handle_save_file` invoked while `current_buffer == 0` performs no
file write and leaves the whole editor state — mode, buffer indices, every
buffer's content and file name, cursor and write log — unchanged (the
display clearing is a pure rendering effect). -/
theorem save_file_reserved_buffer_frame (s : Editor)
    (h : s.current_buffer = 0) :
    handle_save_file s = s := by
  unfold handle_save_file
  rw [if_neg (by simp [h])]

/-- Witness for `save_file_reserved_buffer_frame`: on the concrete SaveMode
state, whose current buffer is 0, the save procedure is the identity. -/
theorem save_file_reserved_buffer_frame_witness :
    saveModeState.current_buffer = 0 ∧
    handle_save_file saveModeState = saveModeState :=
  ⟨rfl, save_file_reserved_buffer_frame saveModeState rfl⟩

/-- C5: pressing Enter in SaveMode commits the reserved buffer 0's content
as the remembered buffer's file name, restores `current_buffer` to
`previous_buffer`, resets `previous_buffer` to 0, re-invokes the save
procedure — which records a write of that buffer's content to the new file
name — and returns the mode to Normal.  The hypotheses are the SaveMode
invariants: the remembered buffer is a real, non-reserved buffer. -/
theorem save_commit_transition (s : Editor)
    (hmode : s.mode = EditorMode.SaveMode)
    (hprev : s.previous_buffer ≠ 0)
    (hlt : s.previous_buffer < s.buffer_list.length) :
    (handle_enter_input s).mode = EditorMode.Normal ∧
    (handle_enter_input s).current_buffer = s.previous_buffer ∧
    (handle_enter_input s).previous_buffer = 0 ∧
    (handle_enter_input s).buffer_list
      = s.buffer_list.set s.previous_buffer
          { s.buffer_list.getD s.previous_buffer defaultBuffer with
              file_name := some (s.buffer_list.getD 0 defaultBuffer).content } ∧
    (handle_enter_input s).writes
      = s.writes ++
          [((s.buffer_list.getD 0 defaultBuffer).content,
            (s.buffer_list.getD s.previous_buffer defaultBuffer).content)] := by
  unfold handle_enter_input
  rw [hmode]
  simp only
  unfold handle_save_file
  rw [if_pos hprev]
  have hcur : (s.buffer_list.set s.previous_buffer
        { s.buffer_list.getD s.previous_buffer defaultBuffer with
            file_name := some (s.buffer_list.getD 0 defaultBuffer).content
        }).getD s.previous_buffer defaultBuffer
      = { s.buffer_list.getD s.previous_buffer defaultBuffer with
            file_name := some (s.buffer_list.getD 0 defaultBuffer).content } := by
    simp [List.getD_eq_getElem?_getD, List.getElem?_set_eq_of_lt _ hlt]
  simp only [currentBuf, hcur]
  exact ⟨trivial, trivial, trivial, trivial, trivial⟩

/-- Witness for `save_commit_transition`: on the concrete SaveMode state the
Enter key commits the (empty) prompt content as buffer 1's file name,
restores the indices and records the write. -/
theorem save_commit_transition_witness :
    saveModeState.mode = EditorMode.SaveMode ∧
    saveModeState.previous_buffer ≠ 0 ∧
    saveModeState.previous_buffer < saveModeState.buffer_list.length ∧
    (handle_enter_input saveModeState).mode = EditorMode.Normal ∧
    (handle_enter_input saveModeState).current_buffer = 1 ∧
    (handle_enter_input saveModeState).previous_buffer = 0 ∧
    (handle_enter_input saveModeState).writes = [([], scenarioContent)] := by
  have h := save_commit_transition saveModeState rfl (by decide) (by decide)
  exact ⟨rfl, by decide, by decide, h.1, h.2.1, h.2.2.1, by
    rw [h.2.2.2.2]; rfl⟩

/-- The cursor-overriding record update performed at the end of most
handlers (`MoveTo`). -/
def setCursor (s : Editor) (p : Nat × Nat) : Editor :=
  { s with cursor := p }

/-- Overriding the cursor leaves the current buffer untouched. -/
theorem currentBuf_setCursor (s : Editor) (p : Nat × Nat) :
    currentBuf (setCursor s p) = currentBuf s := rfl

/-- The overridden cursor is the given pair. -/
theorem cursor_setCursor (s : Editor) (p : Nat × Nat) :
    (setCursor s p).cursor = p := rfl

/-- Updating the current buffer preserves the buffer count. -/
theorem length_updateCurrentBuf (s : Editor) (f : Buffer → Buffer) :
    (updateCurrentBuf s f).buffer_list.length = s.buffer_list.length := by
  simp [updateCurrentBuf]

/-- The content seen through an in-bounds current-buffer update. -/
theorem currentContent_updateCurrentBuf (s : Editor) (f : Buffer → Buffer)
    (h : s.current_buffer < s.buffer_list.length) :
    currentContent (updateCurrentBuf s f) = (f (currentBuf s)).content := by
  rw [currentContent, currentBuf_updateCurrentBuf _ _ h]

/-- The buffer-level round trip: insert at the point, re-aim the point from
the cursor twice (as `handle_char_input` and then `handle_backspace_input`
do), and erase — recovering the original content. -/
theorem buffer_roundtrip (b : Buffer) (c : Char) (R col : Nat)
    (hpt : b.point.position = posToIdx b.content R col)
    (hrow : R < countLines b.content) :
    ((((b.write_char c).move_point_to R (col + 1)).move_point_to R
        col).remove_char).content = b.content := by
  simp only [Buffer.write_char, Buffer.move_point_to, Buffer.remove_char]
  rw [hpt, posToIdx_insertIdx _ _ _ _ hrow, List.eraseIdx_insertIdx]

/-- C8: inserting a character at the point and immediately performing the
backspace operation restores the buffer's prior content exactly.  The
hypotheses are the editor's steady-state invariants: the terminal cursor
addresses the point's buffer position, the point's row exists, and the
current-buffer index is in bounds. -/
theorem insert_delete_roundtrip (s : Editor) (c : Char) (col row : Nat)
    (hcur : s.cursor = (col, row))
    (hcb : s.current_buffer < s.buffer_list.length)
    (hpt : (currentBuf s).point.position
      = posToIdx (currentContent s) (row + s.display.first_line_visible) col)
    (hrow : row + s.display.first_line_visible < countLines (currentContent s)) :
    currentContent (handle_backspace_input (handle_char_input c s))
      = currentContent s := by
  have hchar : handle_char_input c s
      = setCursor
          (updateCurrentBuf (updateCurrentBuf s (fun b => b.write_char c))
            (fun b => b.move_point_to (row + s.display.first_line_visible)
              (col + 1)))
          (col + 1, row) := by
    simp only [handle_char_input, cursor_updateCurrentBuf, hcur]
    rfl
  rw [hchar]
  have hback : handle_backspace_input
      (setCursor
        (updateCurrentBuf (updateCurrentBuf s (fun b => b.write_char c))
          (fun b => b.move_point_to (row + s.display.first_line_visible)
            (col + 1)))
        (col + 1, row))
      = setCursor
          (updateCurrentBuf
            (updateCurrentBuf
              (setCursor
                (updateCurrentBuf (updateCurrentBuf s (fun b => b.write_char c))
                  (fun b => b.move_point_to
                    (row + s.display.first_line_visible) (col + 1)))
                (col + 1, row))
              (fun b => b.move_point_to (row + s.display.first_line_visible)
                col))
            (fun b => b.remove_char))
          (col, row) := by
    simp only [handle_backspace_input, cursor_setCursor]
    rw [if_neg (by simp)]
    rw [if_pos (by omega : (0 : Nat) < col + 1)]
    simp only [Nat.add_sub_cancel]
    rfl
  rw [hback]
  have h4 : (setCursor
        (updateCurrentBuf (updateCurrentBuf s (fun b => b.write_char c))
          (fun b => b.move_point_to (row + s.display.first_line_visible)
            (col + 1)))
        (col + 1, row)).current_buffer
      < (setCursor
        (updateCurrentBuf (updateCurrentBuf s (fun b => b.write_char c))
          (fun b => b.move_point_to (row + s.display.first_line_visible)
            (col + 1)))
        (col + 1, row)).buffer_list.length := by
    simpa [setCursor, updateCurrentBuf] using hcb
  rw [show currentContent (setCursor
        (updateCurrentBuf
          (updateCurrentBuf
            (setCursor
              (updateCurrentBuf (updateCurrentBuf s (fun b => b.write_char c))
                (fun b => b.move_point_to
                  (row + s.display.first_line_visible) (col + 1)))
              (col + 1, row))
            (fun b => b.move_point_to (row + s.display.first_line_visible)
              col))
          (fun b => b.remove_char))
        (col, row))
      = currentContent
          (updateCurrentBuf
            (updateCurrentBuf
              (setCursor
                (updateCurrentBuf (updateCurrentBuf s (fun b => b.write_char c))
                  (fun b => b.move_point_to
                    (row + s.display.first_line_visible) (col + 1)))
                (col + 1, row))
              (fun b => b.move_point_to (row + s.display.first_line_visible)
                col))
            (fun b => b.remove_char)) from rfl]
  rw [currentContent_updateCurrentBuf _ _ (by
    simpa [updateCurrentBuf, setCursor] using hcb)]
  rw [currentBuf_updateCurrentBuf _ _ h4]
  rw [currentBuf_setCursor]
  rw [currentBuf_updateCurrentBuf _ _ (by
    simpa [updateCurrentBuf] using hcb)]
  rw [currentBuf_updateCurrentBuf _ _ hcb]
  exact buffer_roundtrip (currentBuf s) c _ col hpt hrow

/-- An editor over the single-line content "ab" with the cursor at screen
(row 0, column 1) and the point at the matching linear offset 1. -/
def roundtripState : Editor :=
  { display := { width := 80, height := 24, first_line_visible := 0 }
    exit := false
    current_buffer := 1
    previous_buffer := 0
    buffer_list :=
      [init_option_buffer,
       { content := "ab".toList
         point := { name := "Point", position := 1 }
         mark_list := []
         file_name := none
         buffer_type := BufferType.NORMAL }]
    mode := EditorMode.Normal
    cursor := (1, 0)
    saved_cursor := (0, 0)
    writes := [] }

/-- Witness for `insert_delete_roundtrip`: on the concrete "ab" state,
typing 'z' and pressing backspace gives back "ab". -/
theorem insert_delete_roundtrip_witness :
    roundtripState.cursor = (1, 0) ∧
    roundtripState.current_buffer < roundtripState.buffer_list.length ∧
    (currentBuf roundtripState).point.position
      = posToIdx (currentContent roundtripState)
          (0 + roundtripState.display.first_line_visible) 1 ∧
    0 + roundtripState.display.first_line_visible
      < countLines (currentContent roundtripState) ∧
    currentContent (handle_backspace_input (handle_char_input 'z' roundtripState))
      = currentContent roundtripState :=
  ⟨rfl, by decide, by decide, by decide,
    insert_delete_roundtrip roundtripState 'z' 1 0 rfl (by decide) (by decide)
      (by decide)⟩

/-- An editor over "ab\ncd" scrolled down one line
(`first_line_visible = 1`), with the terminal cursor at screen (row 0,
column 0) and the point at buffer position (1, 0) — column 0 of the second
buffer row. -/
def scrolledState : Editor :=
  { display := { width := 80, height := 24, first_line_visible := 1 }
    exit := false
    current_buffer := 1
    previous_buffer := 0
    buffer_list :=
      [init_option_buffer,
       { content := "ab\ncd".toList
         point := { name := "Point", position := posToIdx "ab\ncd".toList 1 0 }
         mark_list := []
         file_name := none
         buffer_type := BufferType.NORMAL }]
    mode := EditorMode.Normal
    cursor := (0, 0)
    saved_cursor := (0, 0)
    writes := [] }

/-- C7 counterexample: the point sits at column 0 of buffer row 1 — a
non-first row — but the viewport is scrolled (`first_line_visible = 1`) so
the terminal cursor is on screen row 0; `handle_backspace_input` tests the
screen row and does nothing: no line break is removed, refuting the claim's
"whenever". -/
theorem backspace_counterexample :
    scrolledState.display.first_line_visible = 1 ∧
    scrolledState.cursor = (0, 0) ∧
    (currentBuf scrolledState).point.position
      = posToIdx (currentContent scrolledState) 1 0 ∧
    handle_backspace_input scrolledState = scrolledState :=
  ⟨rfl, rfl, by decide, rfl⟩

/-- `handle_backspace_input` in its mid-line branch (cursor column > 0). -/
theorem backspace_mid_eq (s : Editor) (col row : Nat)
    (hcur : s.cursor = (col, row)) (hcol : 0 < col) :
    handle_backspace_input s
      = setCursor
          (updateCurrentBuf
            (updateCurrentBuf s (fun b => b.move_point_to
              (row + s.display.first_line_visible) (col - 1)))
            (fun b => b.remove_char))
          (col - 1, row) := by
  simp only [handle_backspace_input, hcur]
  rw [if_neg (by omega : ¬(0 < row ∧ col = 0))]
  rw [if_pos hcol]
  rfl

/-- `handle_backspace_input` in its line-merging branch (cursor at column 0
of a screen row below the top). -/
theorem backspace_merge_eq (s : Editor) (col row : Nat)
    (hcur : s.cursor = (col, row)) (hrow : 0 < row) (hcol : col = 0) :
    handle_backspace_input s
      = setCursor
          (updateCurrentBuf
            (updateCurrentBuf s (fun b => b.move_point_to
              ((row - 1) + s.display.first_line_visible)
              (get_last_column (currentBuf s).content (row - 1))))
            (fun b => b.remove_char))
          (get_last_column (currentBuf s).content (row - 1) - 1, row - 1) := by
  simp only [handle_backspace_input, hcur]
  rw [if_pos (⟨hrow, hcol⟩ : 0 < row ∧ col = 0)]
  rfl

/-- C7 amended: with an unscrolled viewport, Backspace at cursor column
`col > 0` deletes the character immediately before the cursor (the content
index of (row, col-1)) and the cursor steps left; at column 0 of a screen
row below the top, the character at the previous row's last valid column —
the line break terminating it — is removed, merging the rows, and the
cursor lands one left of that column (the previous row's last occupied
column).  When the viewport is scrolled, Backspace at screen (0, 0) is a
no-op even though the buffer row is non-first. -/
theorem backspace_amended (s : Editor) (col row : Nat)
    (hcur : s.cursor = (col, row))
    (hcb : s.current_buffer < s.buffer_list.length) :
    (s.display.first_line_visible = 0 → 0 < col →
        currentContent (handle_backspace_input s)
          = (currentContent s).eraseIdx
              (posToIdx (currentContent s) row (col - 1)) ∧
        (handle_backspace_input s).cursor = (col - 1, row)) ∧
    (s.display.first_line_visible = 0 → col = 0 → 0 < row →
        row < countLines (currentContent s) →
        (currentContent s)[posToIdx (currentContent s) (row - 1)
            (lineLen (currentContent s) (row - 1))]? = some '\n' ∧
        currentContent (handle_backspace_input s)
          = (currentContent s).eraseIdx
              (posToIdx (currentContent s) (row - 1)
                (lineLen (currentContent s) (row - 1))) ∧
        (handle_backspace_input s).cursor
          = (lineLen (currentContent s) (row - 1) - 1, row - 1)) ∧
    (0 < s.display.first_line_visible → col = 0 → row = 0 →
        handle_backspace_input s = s) := by
  refine ⟨?_, ?_, ?_⟩
  · intro hflv hcol
    rw [backspace_mid_eq s col row hcur hcol]
    constructor
    · rw [show currentContent (setCursor
            (updateCurrentBuf
              (updateCurrentBuf s (fun b => b.move_point_to
                (row + s.display.first_line_visible) (col - 1)))
              (fun b => b.remove_char)) (col - 1, row))
          = currentContent
              (updateCurrentBuf
                (updateCurrentBuf s (fun b => b.move_point_to
                  (row + s.display.first_line_visible) (col - 1)))
                (fun b => b.remove_char)) from rfl]
      rw [currentContent_updateCurrentBuf _ _ (by
        simpa [updateCurrentBuf] using hcb)]
      rw [currentBuf_updateCurrentBuf _ _ hcb]
      simp [Buffer.move_point_to, Buffer.remove_char, hflv, currentContent]
    · rfl
  · intro hflv hcol hrow hlines
    rw [backspace_merge_eq s col row hcur hrow hcol]
    have hnl : (currentContent s)[posToIdx (currentContent s) (row - 1)
        (lineLen (currentContent s) (row - 1))]? = some '\n' := by
      apply newline_at_line_end
      omega
    refine ⟨hnl, ?_, ?_⟩
    · rw [show currentContent (setCursor
            (updateCurrentBuf
              (updateCurrentBuf s (fun b => b.move_point_to
                ((row - 1) + s.display.first_line_visible)
                (get_last_column (currentBuf s).content (row - 1))))
              (fun b => b.remove_char))
            (get_last_column (currentBuf s).content (row - 1) - 1, row - 1))
          = currentContent
              (updateCurrentBuf
                (updateCurrentBuf s (fun b => b.move_point_to
                  ((row - 1) + s.display.first_line_visible)
                  (get_last_column (currentBuf s).content (row - 1))))
                (fun b => b.remove_char)) from rfl]
      rw [currentContent_updateCurrentBuf _ _ (by
        simpa [updateCurrentBuf] using hcb)]
      rw [currentBuf_updateCurrentBuf _ _ hcb]
      simp [Buffer.move_point_to, Buffer.remove_char, hflv, currentContent,
        get_last_column]
    · rw [cursor_setCursor]
      rfl
  · intro hflv hcol hrow
    simp only [handle_backspace_input, hcur]
    rw [if_neg (by omega : ¬(0 < row ∧ col = 0))]
    rw [if_neg (by omega : ¬0 < col)]

/-- An editor over "ab\ncd" with an unscrolled viewport and the terminal
cursor at screen (row 1, column 0). -/
def mergeState : Editor :=
  { display := { width := 80, height := 24, first_line_visible := 0 }
    exit := false
    current_buffer := 1
    previous_buffer := 0
    buffer_list :=
      [init_option_buffer,
       { content := "ab\ncd".toList
         point := { name := "Point", position := posToIdx "ab\ncd".toList 1 0 }
         mark_list := []
         file_name := none
         buffer_type := BufferType.NORMAL }]
    mode := EditorMode.Normal
    cursor := (0, 1)
    saved_cursor := (0, 0)
    writes := [] }

/-- Witness for `backspace_amended` at concrete states: on "ab\ncd" with
the cursor at screen (1, 0) the line break at index 2 is removed and the
rows merge; on the scrolled state backspace is a no-op. -/
theorem backspace_amended_witness :
    mergeState.cursor = (0, 1) ∧
    (currentContent mergeState)[posToIdx (currentContent mergeState) 0
        (lineLen (currentContent mergeState) 0)]? = some '\n' ∧
    currentContent (handle_backspace_input mergeState)
      = (currentContent mergeState).eraseIdx
          (posToIdx (currentContent mergeState) 0
            (lineLen (currentContent mergeState) 0)) ∧
    handle_backspace_input scrolledState = scrolledState := by
  have h2 := (backspace_amended mergeState 0 1 rfl (by decide)).2.1 rfl rfl
    (by decide) (by decide)
  have h3 := (backspace_amended scrolledState 0 0 rfl (by decide)).2.2
    (by decide) rfl rfl
  exact ⟨rfl, h2.1, h2.2.1, h3⟩

end MyEditor
